import Mathlib

/-!
Shallow embedding of `src/script.js` (hul0/hulo-skillset), the client-side
portfolio renderer.  The JavaScript is single-threaded and effectively pure in
its data transformations; DOM writes are modelled by recording the final values
written to the named insertion points.  Conventions used throughout:

* A JavaScript value that may be `undefined` is modelled as an `Option`.
* JavaScript truthiness of optional strings (`s.category`, `cat.id`, ...) is
  `strTruthy`: present and non-empty.
* JSON documents are modelled by the `Json` inductive.  Object dictionaries are
  modelled as pure key/value association lists; prototype-chain artifacts of JS
  object literals (e.g. inherited keys such as `"constructor"`) are outside the
  model, as are fields whose runtime type differs from the documented schema
  (section 3 of the spec): a field of unexpected type is modelled as absent.
* JSON numbers are modelled as integers (the schema's rating and priority
  values are integers); the standalone `ratingLabel` helper is modelled over
  `ℚ` so that fractional inputs are covered.
* `new Date(string)` is modelled by `parseDate`, restricted to the ISO
  `YYYY-MM-DD` date-only format used by this repository's data files; other,
  host-defined input formats are out of scope.  A parsed date is a plain
  `(year, month, day)` triple; for such midnight-UTC dates the `getTime`
  ordering used by `Math.min` coincides with lexicographic ordering.
* `Array.prototype.sort` is required by the ECMAScript specification to be
  stable; for a consistent comparator a stable sort is unique, so it is
  modelled by `List.insertionSort` over the comparator's `≤ 0` relation.
* `String.prototype.localeCompare` returns a negative/zero/positive number
  consistent with some linear order on strings; it is modelled by code-point
  lexicographic comparison (`localeCompare`).
-/

/-- Truthiness of an optional JS string: present and non-empty. -/
def strTruthy : Option String → Bool
  | none => false
  | some s => s ≠ ""

/-- Models the JS idiom `s || d` for an optional string `s` with default `d`. -/
def jsOrS : Option String → String → String
  | some s, d => if s = "" then d else s
  | none, d => d

/-- Models the JS idiom `n || 0` for an optional numeric field. -/
def jsOrI : Option Int → Int
  | some n => n
  | none => 0

/-- A calendar date, as produced by parsing a `YYYY-MM-DD` string. -/
structure Date where
  year : Nat
  month : Nat
  day : Nat
deriving DecidableEq, Repr

/-- Gregorian leap-year test, as used by ECMAScript date validation. -/
def isLeapYear (y : Nat) : Bool := y % 4 = 0 && (y % 100 ≠ 0 || y % 400 = 0)

/-- Number of days in the given month of the given year. -/
def daysInMonth (y m : Nat) : Nat :=
  if m = 2 then (if isLeapYear y then 29 else 28)
  else if m = 4 ∨ m = 6 ∨ m = 9 ∨ m = 11 then 30
  else 31

/-- Splits a character list at `-` separators (models `"y-m-d"` decomposition). -/
def splitDashAux : List Char → List Char → List (List Char)
  | [], acc => [acc.reverse]
  | c :: rest, acc =>
    if c = '-' then acc.reverse :: splitDashAux rest []
    else splitDashAux rest (c :: acc)

/-- Splits a string on `-` into its components. -/
def splitDash (s : String) : List (List Char) := splitDashAux s.data []

/-- Numeric value of a decimal digit character, if it is one. -/
def digitVal (c : Char) : Option Nat :=
  if 48 ≤ c.toNat ∧ c.toNat ≤ 57 then some (c.toNat - 48) else none

/-- Parses a non-empty all-digit character list as a decimal number. -/
def parseDigits : List Char → Option Nat
  | [] => none
  | cs => parseDigitsAux cs 0
where
  parseDigitsAux : List Char → Nat → Option Nat
    | [], acc => some acc
    | c :: rest, acc =>
      match digitVal c with
      | some d => parseDigitsAux rest (acc * 10 + d)
      | none => none

/-- Models `new Date(str)` on the ISO `YYYY-MM-DD` date-only format: a result
of `none` corresponds to an Invalid Date (`isNaN(d)` in the source). -/
def parseDate (str : String) : Option Date :=
  match splitDash str with
  | [ys, ms, ds] =>
    match parseDigits ys, parseDigits ms, parseDigits ds with
    | some y, some m, some d =>
      if ys.length = 4 ∧ ms.length = 2 ∧ ds.length = 2 ∧
         1 ≤ m ∧ m ≤ 12 ∧ 1 ≤ d ∧ d ≤ daysInMonth y m
      then some ⟨y, m, d⟩ else none
    | _, _, _ => none
  | _ => none

/-- Date comparison: `getTime` order of midnight-UTC dates, i.e. lexicographic
on `(year, month, day)`. -/
def dateLe (a b : Date) : Bool :=
  decide (a.year < b.year ∨ (a.year = b.year ∧
    (a.month < b.month ∨ (a.month = b.month ∧ a.day ≤ b.day))))

/-- Minimum of two dates in `getTime` order (models `Math.min` on times). -/
def minDate (a b : Date) : Date := if dateLe a b then a else b

/-- A skill record (`skills.json` entry).  Fields that no verified logic
consults (image, description, tags, level, projects, resources) are omitted;
they are only copied verbatim into the DOM. -/
structure Skill where
  id : Option String
  name : Option String
  category : Option String
  categoryId : Option String
  priority : Option Int
  visible : Option Bool
  startDate : Option String
deriving DecidableEq, Repr

/-- Models `new Date(d)` where `d` came from an optional field. -/
def jsNewDate : Option String → Option Date
  | some s => parseDate s
  | none => none

/-- Lines 117-121: `skills.map(s => s.startDate).filter(Boolean)
.map(d => new Date(d)).filter(d => !isNaN(d))`. -/
def parsedDates (skills : List Skill) : List Date :=
  (((skills.map Skill.startDate).filter strTruthy).map jsNewDate).filterMap id

/-- Line 123: the earliest parseable start date across all skills. -/
def earliestDate (skills : List Skill) : Option Date :=
  match parsedDates skills with
  | [] => none
  | d :: rest => some (rest.foldl minDate d)

/-- Lines 116-128: `computeExperienceYearsFromSkills`, with the current date
passed explicitly. -/
def computeExperienceYearsFromSkills (skills : List Skill) (now : Date) : Int :=
  match earliestDate skills with
  | none => 0
  | some earliest =>
    let years : Int := (now.year : Int) - (earliest.year : Int)
    let adjust : Int :=
      if now.month < earliest.month ∨
         (now.month = earliest.month ∧ now.day < earliest.day) then 1 else 0
    max 0 (years - adjust)

/-- Lines 92-97: `ratingLabel`.  Modelled over `ℚ` since JS numbers admit
fractional ratings. -/
def ratingLabel (n : ℚ) : String :=
  if n ≥ 9 then "Expert"
  else if n ≥ 7 then "Advanced"
  else if n ≥ 4 then "Intermediate"
  else "Beginner"

/-- Line 229: `Math.max(0, Math.min(10, Number(rating || 0)))`. -/
def ratingNormalized (r : ℚ) : ℚ := max 0 (min 10 r)

example : parseDate "2021-06-01" = some ⟨2021, 6, 1⟩ := by decide
example : parseDate "2021-13-01" = none := by decide
example : parseDate "hello" = none := by decide
example : computeExperienceYearsFromSkills
    [⟨some "python", some "Python", none, none, none, none, some "2021-06-01"⟩,
     ⟨some "javascript", some "JavaScript", none, none, none, none, some "2022-01-15"⟩]
    ⟨2024, 6, 1⟩ = 3 := by decide

/-- Code-point lexicographic strict order on character lists; the model of the
order underlying `localeCompare`. -/
def charListLt : List Char → List Char → Bool
  | _, [] => false
  | [], _ :: _ => true
  | a :: as, b :: bs =>
    if a.toNat < b.toNat then true
    else if b.toNat < a.toNat then false
    else charListLt as bs

/-- Strict order on strings (code-point lexicographic). -/
def strLt (a b : String) : Bool := charListLt a.data b.data

/-- Models `a.localeCompare(b)`: a negative / zero / positive number according
to a linear order on strings. -/
def localeCompare (a b : String) : Int :=
  if strLt a b then -1 else if strLt b a then 1 else 0

theorem charListLt_irrefl (l : List Char) : charListLt l l = false := by
  induction l with
  | nil => rfl
  | cons c cs ih => simp [charListLt, ih]

theorem charListLt_trans : ∀ {a b c : List Char},
    charListLt a b = true → charListLt b c = true → charListLt a c = true := by
  intro a
  induction a with
  | nil =>
    intro b c hab hbc
    cases c with
    | nil => cases b <;> simp [charListLt] at hab hbc
    | cons z zs => simp [charListLt]
  | cons x xs ih =>
    intro b c hab hbc
    cases b with
    | nil => simp [charListLt] at hab
    | cons y ys =>
      cases c with
      | nil => simp [charListLt] at hbc
      | cons z zs =>
        simp only [charListLt] at hab hbc ⊢
        split_ifs at hab hbc ⊢ with h1 h2 h3 h4 h5 h6 <;>
          first
          | rfl
          | omega
          | (exact ih hab hbc)

theorem charListLt_co_trans : ∀ {c a : List Char}, charListLt c a = true →
    ∀ (b : List Char), charListLt c b = true ∨ charListLt b a = true := by
  intro c
  induction c with
  | nil =>
    intro a hca b
    cases a with
    | nil => simp [charListLt] at hca
    | cons y ys =>
      cases b with
      | nil => right; simp [charListLt]
      | cons z zs => left; simp [charListLt]
  | cons x xs ih =>
    intro a hca b
    cases a with
    | nil => simp [charListLt] at hca
    | cons y ys =>
      cases b with
      | nil => right; simp [charListLt]
      | cons z zs =>
        simp only [charListLt] at hca ⊢
        rcases Nat.lt_trichotomy x.toNat z.toNat with hxz | hxz | hxz
        · left; simp [hxz]
        · rcases Nat.lt_trichotomy z.toNat y.toNat with hzy | hzy | hzy
          · right; simp [hzy]
          · have hxy : ¬ x.toNat < y.toNat := by omega
            have hyx : ¬ y.toNat < x.toNat := by omega
            simp only [if_neg hxy, if_neg hyx] at hca
            rcases ih hca zs with h | h
            · left
              simp only [if_neg (by omega : ¬ x.toNat < z.toNat),
                if_neg (by omega : ¬ z.toNat < x.toNat)]
              exact h
            · right
              simp only [if_neg (by omega : ¬ z.toNat < y.toNat),
                if_neg (by omega : ¬ y.toNat < z.toNat)]
              exact h
          · exfalso
            have hxy : ¬ x.toNat < y.toNat := by omega
            have hyx : y.toNat < x.toNat := by omega
            simp [if_neg hxy, hyx] at hca
        · rcases Nat.lt_trichotomy z.toNat y.toNat with hzy | hzy | hzy
          · right; simp [hzy]
          · exfalso
            have hxy : ¬ x.toNat < y.toNat := by omega
            have hyx : y.toNat < x.toNat := by omega
            simp [if_neg hxy, hyx] at hca
          · exfalso
            have hxy : ¬ x.toNat < y.toNat := by omega
            have hyx : y.toNat < x.toNat := by omega
            simp [if_neg hxy, hyx] at hca

theorem charListLt_asymm {a b : List Char} (h1 : charListLt a b = true)
    (h2 : charListLt b a = true) : False := by
  have h := charListLt_trans h1 h2
  rw [charListLt_irrefl] at h
  exact Bool.false_ne_true h

/-- Non-strict code-point order on strings: `a` does not come after `b`. -/
def strLe (a b : String) : Bool := !(strLt b a)

/-- Line 190: `(a.priority || 0)`. -/
def jsPriority (s : Skill) : Int := jsOrI s.priority

/-- Line 190: `(a.name || '')`. -/
def jsName (s : Skill) : String := jsOrS s.name ""

/-- Line 190: the sort comparator
`(b.priority || 0) - (a.priority || 0) || (a.name || '').localeCompare(b.name || '')`.
A zero priority difference is falsy, so the name comparison breaks ties. -/
def skillCmp (a b : Skill) : Int :=
  let d : Int := jsPriority b - jsPriority a
  if d ≠ 0 then d else localeCompare (jsName a) (jsName b)

/-- The order realised by `Array.prototype.sort` with comparator `skillCmp`:
`a` may be placed before `b` exactly when the comparator is non-positive. -/
def sortRel (a b : Skill) : Prop := skillCmp a b ≤ 0

instance : DecidableRel sortRel :=
  fun a b => inferInstanceAs (Decidable (skillCmp a b ≤ 0))

/-- Line 190: `group.items.sort(comparator)`.  ECMAScript requires `sort` to be
stable, and a stable sort for a consistent comparator is unique, so it is
modelled by insertion sort over `sortRel`. -/
def jsSortGroup (items : List Skill) : List Skill := List.insertionSort sortRel items

theorem sortRel_iff (a b : Skill) : sortRel a b ↔
    (jsPriority b < jsPriority a ∨
     (jsPriority b = jsPriority a ∧ strLe (jsName a) (jsName b) = true)) := by
  unfold sortRel skillCmp localeCompare strLe
  by_cases hd : jsPriority b - jsPriority a = 0
  · simp only [hd, if_neg (by omega : ¬ (0 : Int) ≠ 0)]
    by_cases h1 : strLt (jsName a) (jsName b) = true
    · simp only [h1, if_true]
      have h2 : strLt (jsName b) (jsName a) = false := by
        cases h : strLt (jsName b) (jsName a)
        · rfl
        · exact absurd (charListLt_asymm h1 h) id
      simp [h2]
      omega
    · simp only [Bool.not_eq_true] at h1
      simp only [h1, Bool.false_eq_true, if_false]
      by_cases h2 : strLt (jsName b) (jsName a) = true
      · simp [h2]
        omega
      · simp only [Bool.not_eq_true] at h2
        simp [h2]
        omega
  · simp only [if_pos hd]
    constructor
    · intro h
      left
      omega
    · intro h
      rcases h with h | ⟨h, _⟩
      · omega
      · omega

instance : IsTrans Skill sortRel := by
  constructor
  intro a b c hab hbc
  rw [sortRel_iff] at hab hbc ⊢
  rcases hab with h1 | ⟨h1, h1s⟩ <;> rcases hbc with h2 | ⟨h2, h2s⟩
  · left; omega
  · left; omega
  · left; omega
  · right
    refine ⟨by omega, ?_⟩
    unfold strLe at h1s h2s ⊢
    simp only [Bool.not_eq_true'] at h1s h2s
    simp only [Bool.not_eq_eq_eq_not, Bool.not_true]
    cases h : strLt (jsName c) (jsName a)
    · rfl
    · rcases charListLt_co_trans (c := (jsName c).data) (a := (jsName a).data) h
        (jsName b).data with hcb | hba
      · exact absurd hcb (by simp [strLt] at h2s ⊢; exact h2s)
      · exact absurd hba (by simp [strLt] at h1s ⊢; exact h1s)

instance : IsTotal Skill sortRel := by
  constructor
  intro a b
  rw [sortRel_iff, sortRel_iff]
  rcases Int.lt_trichotomy (jsPriority a) (jsPriority b) with h | h | h
  · right; left; exact h
  · by_cases hab : strLt (jsName b) (jsName a) = true
    · right
      right
      refine ⟨h, ?_⟩
      unfold strLe
      cases hba : strLt (jsName a) (jsName b)
      · rfl
      · exact absurd (charListLt_asymm hab hba) id
    · left
      right
      refine ⟨h.symm, ?_⟩
      unfold strLe
      simp [hab]
  · left; left; exact h

/-- Line 181: the `s.category ? s.category.toLowerCase() : 'uncategorized'`
half of the group key. -/
def groupKeyFallback (s : Skill) : String :=
  match s.category with
  | some c => if c = "" then "uncategorized" else c.toLower
  | none => "uncategorized"

/-- Line 181: `s.categoryId || (s.category ? s.category.toLowerCase() :
'uncategorized')`.  An empty `categoryId` is falsy and falls through. -/
def groupKey (s : Skill) : String :=
  match s.categoryId with
  | some cid => if cid = "" then groupKeyFallback s else cid
  | none => groupKeyFallback s

/-- One group of the skills grid: object key, display title and member list,
as built by the loop at lines 178-184. -/
structure RGroup where
  key : String
  title : String
  items : List Skill
deriving DecidableEq, Repr

/-- Line 182: the group title `categoriesMap[key] || s.category || key`,
taken from the first skill that creates the group. -/
def groupTitle (cmap : List (String × String)) (s : Skill) (key : String) : String :=
  match cmap.lookup key with
  | some v => if v = "" then jsOrS s.category key else v
  | none => jsOrS s.category key

/-- Appends `s` to the group named `k`, creating the group at the end if it
does not exist yet (JS object string keys preserve insertion order). -/
def insertSkill : List RGroup → String → String → Skill → List RGroup
  | [], k, t, s => [⟨k, t, [s]⟩]
  | g :: rest, k, t, s =>
    if g.key = k then ⟨g.key, g.title, g.items ++ [s]⟩ :: rest
    else g :: insertSkill rest k t s

/-- One step of the grouping loop body (lines 179-184). -/
def groupStep (cmap : List (String × String)) (gs : List RGroup) (s : Skill) :
    List RGroup :=
  if s.visible = some false then gs
  else insertSkill gs (groupKey s) (groupTitle cmap s (groupKey s)) s

/-- Lines 178-184 of `renderSkillsGrid`: group the visible skills. -/
def buildGroups (cmap : List (String × String)) (skills : List Skill) :
    List RGroup :=
  skills.foldl (groupStep cmap) []

/-- A skill-category entry of `user.skillCategories`. -/
structure SkillCategory where
  id : Option String
  name : Option String
  title : Option String
deriving DecidableEq, Repr

/-- The `user.experience` record.  `totalYears = none` models an absent or
non-numeric field, whose `Number(...)` image is the falsy `NaN`. -/
structure Experience where
  totalYears : Option Int
deriving DecidableEq, Repr

/-- The parts of the `user.json` record consulted by the verified logic.
Header fields (name, about, social links, ...) are only copied verbatim into
the DOM and are omitted. -/
structure User where
  skillCategories : List SkillCategory
  experience : Option Experience
deriving DecidableEq, Repr

/-- JS object assignment `m[k] = v`: overwrites an existing binding in place,
otherwise appends a new one. -/
def setKey : List (String × String) → String → String → List (String × String)
  | [], k, v => [(k, v)]
  | (k', v') :: rest, k, v =>
    if k' = k then (k, v) :: rest else (k', v') :: setKey rest k v

/-- Lines 389-392: build `categoriesMap` from `userData.skillCategories`;
entries without a truthy `id` are skipped, the value is
`cat.name || cat.title || cat.id`. -/
def categoriesMapOf (user : User) : List (String × String) :=
  user.skillCategories.foldl
    (fun m cat =>
      match cat.id with
      | some cid =>
        if cid = "" then m
        else setKey m cid (jsOrS cat.name (jsOrS cat.title cid))
      | none => m)
    []

/-- Lines 395-397: `if (!s.category && s.categoryId && categoriesMap[s.categoryId])
s.category = categoriesMap[s.categoryId]`. -/
def resolveCategory (cmap : List (String × String)) (s : Skill) : Skill :=
  if strTruthy s.category then s
  else
    match s.categoryId with
    | none => s
    | some cid =>
      if cid = "" then s
      else
        match cmap.lookup cid with
        | none => s
        | some v => if v = "" then s else { s with category := some v }

/-- Line 160 of `createSkillCard`: the category caption `skill.category || ''`. -/
def cardCategoryText (s : Skill) : String := jsOrS s.category ""

/-- Line 226 of `openSkillModal`:
`skill.category || (skill.categoryId || 'Uncategorized')`. -/
def modalCategoryText (s : Skill) : String :=
  jsOrS s.category (jsOrS s.categoryId "Uncategorized")

/-- Property key used by `ratings[skill.id]`: a missing id indexes the literal
property name `"undefined"`. -/
def ratingKey (s : Skill) : String :=
  match s.id with
  | some i => i
  | none => "undefined"

/-- Line 201: `(ratings && ratings[skill.id] !== undefined) ? ratings[skill.id] : 0`. -/
def skillRating (ratings : List (String × Int)) (s : Skill) : Int :=
  match ratings.lookup (ratingKey s) with
  | some r => r
  | none => 0

/-- Line 407: `(userData && userData.experience && Number(userData.experience.totalYears))
|| computeExperienceYearsFromSkills(skillsData) || 0`.  `userData` is always a
truthy object at this point; a missing or non-numeric `totalYears` gives the
falsy `NaN`, modelled like the falsy `0`. -/
def initExperienceYears (user : User) (skills : List Skill) (now : Date) : Int :=
  let override : Int :=
    match user.experience with
    | some ex =>
      match ex.totalYears with
      | some n => n
      | none => 0
    | none => 0
  if override ≠ 0 then override
  else
    let computed := computeExperienceYearsFromSkills skills now
    if computed ≠ 0 then computed else 0

/-- Line 412: the final text of the `experience-years` slot,
`` `${experienceYears}+` `` (it overwrites the value set by `renderStats`). -/
def displayedExperienceYears (user : User) (skills : List Skill) (now : Date) :
    String :=
  toString (initExperienceYears user skills now) ++ "+"

/-- A parsed JSON document (the possible results of `resp.json()`). -/
inductive Json where
  | null : Json
  | bool : Bool → Json
  | num : Int → Json
  | str : String → Json
  | arr : List Json → Json
  | obj : List (String × Json) → Json

/-- JS truthiness of a JSON value. -/
def jsTruthy : Json → Bool
  | .null => false
  | .bool b => b
  | .num n => n ≠ 0
  | .str s => s ≠ ""
  | .arr _ => true
  | .obj _ => true

/-- Models `Array.isArray`. -/
def jsonIsArray : Json → Bool
  | .arr _ => true
  | _ => false

/-- Models `typeof v === 'object'` (true for objects, arrays and `null`). -/
def jsonTypeofObject : Json → Bool
  | .null => true
  | .arr _ => true
  | .obj _ => true
  | _ => false

/-- Line 382: the ratings payload passes validation when it is truthy, of
object type and not an array. -/
def ratingsShapeOk (j : Json) : Bool :=
  jsTruthy j && jsonTypeofObject j && !(jsonIsArray j)

/-- Lines 358-374: a fetch outcome (`none` = rejected) is kept when fulfilled
with a truthy value, otherwise the hard-coded fallback is substituted (the
code tests `!userData`, so a fulfilled falsy value also falls back). -/
def resolveResource (fetched : Option Json) (fallback : Json) : Json :=
  match fetched with
  | some v => if jsTruthy v then v else fallback
  | none => fallback

/-- Lines 33-52: `FALLBACK_USER`. -/
def FALLBACK_USER : Json := .obj [
  ("name", .str "Rupam Ghosh"),
  ("nickname", .str "hulo"),
  ("title", .str "Cyber Security Enthusiast & Full-Stack Developer"),
  ("location", .str "Durgapur, West Bengal, India"),
  ("profilePicture", .str "https://via.placeholder.com/300x300/0a0f14/00f5d4?text=RG"),
  ("about", .str "Passionate cybersecurity enthusiast with a strong foundation in full-stack development. (ERROR - THIS IS DUMMY TEXTS)"),
  ("cvUrl", .str "./assets/Rupam_Ghosh_CV.pdf"),
  ("socialLinks", .arr [
    .obj [("platform", .str "github"), ("url", .str "https://github.com/rupamghosh"), ("username", .str "rupamghosh")],
    .obj [("platform", .str "linkedin"), ("url", .str "https://linkedin.com/in/rupamghosh"), ("username", .str "rupamghosh")]]),
  ("skillCategories", .arr [
    .obj [("id", .str "cybersecurity"), ("name", .str "🔐 Cybersecurity Skills")],
    .obj [("id", .str "programming"), ("name", .str "💻 Programming & Development")],
    .obj [("id", .str "systems"), ("name", .str "🖥️ Systems & Infrastructure")],
    .obj [("id", .str "tools"), ("name", .str "🔧 Tools & Technologies")]]),
  ("experience", .obj [("totalYears", .num 4), ("startDate", .str "2020-09-01")])]

/-- Lines 54-85: `FALLBACK_SKILLS`. -/
def FALLBACK_SKILLS : Json := .arr [
  .obj [
    ("id", .str "python"),
    ("name", .str "Python"),
    ("categoryId", .str "programming"),
    ("category", .str "Programming"),
    ("level", .str "Advanced"),
    ("tags", .arr [.str "backend", .str "scripting"]),
    ("priority", .num 10),
    ("visible", .bool true),
    ("startDate", .str "2021-06-01"),
    ("imageUrl", .str "https://upload.wikimedia.org/wikipedia/commons/c/c3/Python-logo-notext.svg"),
    ("description", .str "Primary language for backend development, scripting, and cybersecurity tasks."),
    ("projects", .arr [.str "Developed a port scanner", .str "Built REST APIs"]),
    ("resources", .arr [.obj [("name", .str "Official Docs"), ("url", .str "https://docs.python.org/3/")]])],
  .obj [
    ("id", .str "javascript"),
    ("name", .str "JavaScript"),
    ("categoryId", .str "programming"),
    ("category", .str "Programming"),
    ("level", .str "Intermediate"),
    ("tags", .arr [.str "frontend", .str "web"]),
    ("priority", .num 9),
    ("visible", .bool true),
    ("startDate", .str "2022-01-15"),
    ("imageUrl", .str "https://upload.wikimedia.org/wikipedia/commons/6/6a/JavaScript-logo.png"),
    ("description", .str "Used for frontend interactivity and dynamic web apps."),
    ("projects", .arr [.str "Built portfolio website"]),
    ("resources", .arr [.obj [("name", .str "MDN"), ("url", .str "https://developer.mozilla.org/")]])]]

/-- Line 87: `FALLBACK_RATINGS`. -/
def FALLBACK_RATINGS : Json := .obj [("python", .num 8), ("javascript", .num 7)]

/-- Property access `j[k]` on a parsed JSON value. -/
def jLookup (j : Json) (k : String) : Option Json :=
  match j with
  | .obj fields => fields.lookup k
  | _ => none

/-- Reads a string-typed field (absent or differently-typed gives `none`). -/
def jGetStr (j : Json) (k : String) : Option String :=
  match jLookup j k with
  | some (.str s) => some s
  | _ => none

/-- Reads a number-typed field. -/
def jGetInt (j : Json) (k : String) : Option Int :=
  match jLookup j k with
  | some (.num n) => some n
  | _ => none

/-- Reads a boolean-typed field. -/
def jGetBool (j : Json) (k : String) : Option Bool :=
  match jLookup j k with
  | some (.bool b) => some b
  | _ => none

/-- Elements of a JSON array. -/
def jElems : Json → List Json
  | .arr xs => xs
  | _ => []

/-- Views one element of the skills array as a `Skill` record. -/
def decodeSkill (j : Json) : Skill :=
  { id := jGetStr j "id"
    name := jGetStr j "name"
    category := jGetStr j "category"
    categoryId := jGetStr j "categoryId"
    priority := jGetInt j "priority"
    visible := jGetBool j "visible"
    startDate := jGetStr j "startDate" }

/-- Views one element of `user.skillCategories` as a `SkillCategory`. -/
def decodeCategory (j : Json) : SkillCategory :=
  { id := jGetStr j "id", name := jGetStr j "name", title := jGetStr j "title" }

/-- Views the user payload as a `User`: `userData.skillCategories || []`, and
`userData.experience` only when truthy (line 407 short-circuits otherwise). -/
def decodeUser (j : Json) : User :=
  { skillCategories :=
      match jLookup j "skillCategories" with
      | some (.arr xs) => xs.map decodeCategory
      | _ => []
    experience :=
      match jLookup j "experience" with
      | some e => if jsTruthy e then some { totalYears := jGetInt e "totalYears" } else none
      | none => none }

/-- Views the ratings payload as an id-to-rating map (schema section 3 maps
skill ids to integers; differently-typed values are outside the model). -/
def decodeRatings (j : Json) : List (String × Int) :=
  match j with
  | .obj fields =>
    fields.filterMap (fun kv =>
      match kv.2 with
      | .num n => some (kv.1, n)
      | _ => none)
  | _ => []

/-- The skills list as decoded from a validated skills payload. -/
def decodeSkills (j : Json) : List Skill := (jElems j).map decodeSkill

/-- Outcome of the shape validation at lines 377-386. -/
inductive Validation where
  | ok : Validation
  | badSkills : Validation
  | badRatings : Validation
deriving DecidableEq, Repr

/-- Lines 377-386: skills must be an array, ratings a truthy non-array object. -/
def validatePayloads (skillsData ratingsData : Json) : Validation :=
  if !(jsonIsArray skillsData) then .badSkills
  else if !(ratingsShapeOk ratingsData) then .badRatings
  else .ok

/-- Lines 349-374: the three fetch outcomes are settled jointly and resolved
independently against their respective hard-coded fallbacks. -/
def resolveAll (fu fs fr : Option Json) : Json × Json × Json :=
  (resolveResource fu FALLBACK_USER,
   resolveResource fs FALLBACK_SKILLS,
   resolveResource fr FALLBACK_RATINGS)

/-- Line 379 error text. -/
def skillsMalformedMsg : String := "Error: skills.json malformed — check console."

/-- Line 384 error text. -/
def ratingsMalformedMsg : String := "Error: ratings.json malformed — check console."

/-- The final state of the rendering target after `init` returns:
`loaderMessage` is the text left in place of the content area by `showLoader`
(`none` once the grid replaced it), `cards` lists the produced skill cards as
`(data-skill-id, rating)` pairs in render order, and `stats` the three display
slots (visible skills, categories, experience years). -/
structure RenderOutcome where
  loaderMessage : Option String
  cards : List (Option String × Int)
  stats : Option (Nat × Nat × Int)
deriving DecidableEq, Repr

/-- Lines 341-423: `init`, from the three settled fetch outcomes to the final
rendering state.  The DOM anchors are assumed present (spec section 6); the
current date is passed explicitly. -/
def runInit (fu fs fr : Option Json) (now : Date) : RenderOutcome :=
  let resolved := resolveAll fu fs fr
  let userData := resolved.1
  let skillsData := resolved.2.1
  let ratingsData := resolved.2.2
  match validatePayloads skillsData ratingsData with
  | .badSkills => { loaderMessage := some skillsMalformedMsg, cards := [], stats := none }
  | .badRatings => { loaderMessage := some ratingsMalformedMsg, cards := [], stats := none }
  | .ok =>
    let user := decodeUser userData
    let cmap := categoriesMapOf user
    let skills := (decodeSkills skillsData).map (resolveCategory cmap)
    let ratings := decodeRatings ratingsData
    let groups := buildGroups cmap skills
    let cards := groups.flatMap
      (fun g => (jsSortGroup g.items).map (fun s => (s.id, skillRating ratings s)))
    let totalSkills := (skills.filter (fun s => s.visible ≠ some false)).length
    let totalCategories := groups.length
    let experienceYears := initExperienceYears user skills now
    { loaderMessage := none
      cards := cards
      stats := some (totalSkills, totalCategories, experienceYears) }

example : (runInit none none none ⟨2024, 6, 1⟩).stats = some (2, 1, 4) := by decide
example : (runInit none none none ⟨2024, 6, 1⟩).cards =
    [(some "python", 8), (some "javascript", 7)] := by decide

/-- Claim C7: for every numeric rating `n` the qualitative label is `"Expert"`
if `n ≥ 9`, `"Advanced"` if `7 ≤ n < 9`, `"Intermediate"` if `4 ≤ n < 7`, and
`"Beginner"` otherwise; the boundary values 9, 7 and 4 map to the higher
label. -/
theorem claim_C7_ratingLabel (n : ℚ) :
    ((9 ≤ n → ratingLabel n = "Expert") ∧
     (7 ≤ n → n < 9 → ratingLabel n = "Advanced") ∧
     (4 ≤ n → n < 7 → ratingLabel n = "Intermediate") ∧
     (n < 4 → ratingLabel n = "Beginner")) ∧
    (ratingLabel 9 = "Expert" ∧ ratingLabel 7 = "Advanced" ∧
     ratingLabel 4 = "Intermediate") := by
  constructor
  · refine ⟨?_, ?_, ?_, ?_⟩
    · intro h
      unfold ratingLabel
      rw [if_pos (by linarith : n ≥ 9)]
    · intro h1 h2
      unfold ratingLabel
      rw [if_neg (by linarith : ¬ n ≥ 9), if_pos (by linarith : n ≥ 7)]
    · intro h1 h2
      unfold ratingLabel
      rw [if_neg (by linarith : ¬ n ≥ 9), if_neg (by linarith : ¬ n ≥ 7),
        if_pos (by linarith : n ≥ 4)]
    · intro h
      unfold ratingLabel
      rw [if_neg (by linarith : ¬ n ≥ 9), if_neg (by linarith : ¬ n ≥ 7),
        if_neg (by linarith : ¬ n ≥ 4)]
  · refine ⟨?_, ?_, ?_⟩ <;> norm_num [ratingLabel]

/-- Witness for C7 at the three boundary ratings and a `Beginner` one. -/
theorem claim_C7_witness :
    ratingLabel 9 = "Expert" ∧ ratingLabel 7 = "Advanced" ∧
    ratingLabel 4 = "Intermediate" ∧ ratingLabel 3 = "Beginner" := by
  refine ⟨(claim_C7_ratingLabel 9).1.1 (by norm_num),
    (claim_C7_ratingLabel 7).1.2.1 (by norm_num) (by norm_num),
    (claim_C7_ratingLabel 4).1.2.2.1 (by norm_num) (by norm_num),
    (claim_C7_ratingLabel 3).1.2.2.2 (by norm_num)⟩

theorem resolveCategory_truthy (cmap : List (String × String)) (s : Skill)
    (h : strTruthy s.category = true) : resolveCategory cmap s = s := by
  unfold resolveCategory
  rw [if_pos h]

theorem resolveCategory_idem (cmap : List (String × String)) (s : Skill) :
    resolveCategory cmap (resolveCategory cmap s) = resolveCategory cmap s := by
  by_cases h : strTruthy s.category
  · rw [resolveCategory_truthy cmap s h]
    exact resolveCategory_truthy cmap s h
  · cases hcid : s.categoryId with
    | none =>
      have hr : resolveCategory cmap s = s := by simp [resolveCategory, h, hcid]
      rw [hr, hr]
    | some cid =>
      by_cases hc : cid = ""
      · have hr : resolveCategory cmap s = s := by simp [resolveCategory, h, hcid, hc]
        rw [hr, hr]
      · cases hl : cmap.lookup cid with
        | none =>
          have hr : resolveCategory cmap s = s := by
            simp [resolveCategory, h, hcid, hc, hl]
          rw [hr, hr]
        | some v =>
          by_cases hv : v = ""
          · have hr : resolveCategory cmap s = s := by
              simp [resolveCategory, h, hcid, hc, hl, hv]
            rw [hr, hr]
          · have hr : resolveCategory cmap s = { s with category := some v } := by
              simp [resolveCategory, h, hcid, hc, hl, hv]
            rw [hr]
            exact resolveCategory_truthy cmap _ (by simp [strTruthy, hv])

/-- Claim C8: the category-resolution pass of `init` (lines 395-397) is
idempotent: applying it twice to a skill list gives the same list as applying
it once, for every category map. -/
theorem claim_C8_resolutionIdempotent (cmap : List (String × String))
    (skills : List Skill) :
    (skills.map (resolveCategory cmap)).map (resolveCategory cmap) =
    skills.map (resolveCategory cmap) := by
  rw [List.map_map]
  exact List.map_congr_left (fun s _ => resolveCategory_idem cmap s)

/-- A skill with no explicit category whose `categoryId` is not in the
category map. -/
def unmappedSkill : Skill :=
  { id := some "mystery", name := some "Mystery", category := none,
    categoryId := some "zzz", priority := none, visible := none,
    startDate := none }

/-- Counterexample to claim C9: after category resolution against an empty
category map, `unmappedSkill` still lacks a category, and the category text on
its card (`skill.category || ''`, line 160) is the empty string — not the
mapped name, not the raw `categoryId` `"zzz"`, and not `"Uncategorized"` — so
the card caption can be empty, contrary to the claim. -/
theorem claim_C9_counterexample :
    (resolveCategory [] unmappedSkill).category = none ∧
    cardCategoryText (resolveCategory [] unmappedSkill) = "" ∧
    ("" : String) ≠ "zzz" ∧ ("" : String) ≠ "Uncategorized" := by decide

/-- Claim C9 as amended: for a rendered skill lacking an explicit category
string, the MODAL category text is never empty, it equals the mapped display
name whenever the `categoryId` resolves against the category map (non-empty id
mapped to a non-empty name), and it equals the raw `categoryId` or
`"Uncategorized"` (`skill.categoryId || 'Uncategorized'`) whenever it does
not; the CARD caption equals the mapped name whenever the `categoryId`
resolves, and equals the empty string whenever it does not. -/
theorem claim_C9_amended (cmap : List (String × String)) (s : Skill)
    (hcat : strTruthy s.category = false) :
    (modalCategoryText (resolveCategory cmap s) ≠ "" ∧
     (∀ cid v, s.categoryId = some cid → cid ≠ "" → cmap.lookup cid = some v →
        v ≠ "" → modalCategoryText (resolveCategory cmap s) = v) ∧
     (¬ (∃ cid v, s.categoryId = some cid ∧ cid ≠ "" ∧ cmap.lookup cid = some v ∧
          v ≠ "") →
        modalCategoryText (resolveCategory cmap s) =
          jsOrS s.categoryId "Uncategorized")) ∧
    ((∀ cid v, s.categoryId = some cid → cid ≠ "" → cmap.lookup cid = some v →
        v ≠ "" → cardCategoryText (resolveCategory cmap s) = v) ∧
     (¬ (∃ cid v, s.categoryId = some cid ∧ cid ≠ "" ∧ cmap.lookup cid = some v ∧
          v ≠ "") →
        cardCategoryText (resolveCategory cmap s) = "")) := by
  have hcat' : jsOrS s.category = fun d => d := by
    funext d
    cases hc : s.category with
    | none => rfl
    | some c =>
      simp [strTruthy, hc] at hcat
      simp [jsOrS, hcat]
  cases hcid : s.categoryId with
  | none =>
    have hr : resolveCategory cmap s = s := by
      simp [resolveCategory, hcat, hcid]
    rw [hr]
    unfold modalCategoryText cardCategoryText
    rw [hcat', hcid]
    refine ⟨⟨by simp [jsOrS], ?_, fun _ => rfl⟩, ?_, fun _ => rfl⟩
    · intro cid v h1 _ _ _
      exact Option.noConfusion h1
    · intro cid v h1 _ _ _
      exact Option.noConfusion h1
  | some cid =>
    by_cases hc : cid = ""
    · have hr : resolveCategory cmap s = s := by
        simp [resolveCategory, hcat, hcid, hc]
      rw [hr]
      unfold modalCategoryText cardCategoryText
      rw [hcat', hcid, hc]
      refine ⟨⟨by simp [jsOrS], ?_, fun _ => rfl⟩, ?_, fun _ => rfl⟩
      · intro cid2 v h1 h2 _ _
        cases h1
        exact absurd rfl h2
      · intro cid2 v h1 h2 _ _
        cases h1
        exact absurd rfl h2
    · cases hl : cmap.lookup cid with
      | none =>
        have hr : resolveCategory cmap s = s := by
          simp [resolveCategory, hcat, hcid, hc, hl]
        rw [hr]
        unfold modalCategoryText cardCategoryText
        rw [hcat', hcid]
        refine ⟨⟨by simp [jsOrS, hc], ?_, fun _ => rfl⟩, ?_, fun _ => rfl⟩
        · intro cid2 v h1 _ h3 _
          cases h1
          rw [hl] at h3
          exact Option.noConfusion h3
        · intro cid2 v h1 _ h3 _
          cases h1
          rw [hl] at h3
          exact Option.noConfusion h3
      | some v =>
        by_cases hv : v = ""
        · have hr : resolveCategory cmap s = s := by
            simp [resolveCategory, hcat, hcid, hc, hl, hv]
          rw [hr]
          unfold modalCategoryText cardCategoryText
          rw [hcat', hcid]
          refine ⟨⟨by simp [jsOrS, hc], ?_, fun _ => rfl⟩, ?_, fun _ => rfl⟩
          · intro cid2 v2 h1 _ h3 h4
            cases h1
            rw [hl] at h3
            obtain rfl := Option.some_inj.mp h3
            exact absurd hv h4
          · intro cid2 v2 h1 _ h3 h4
            cases h1
            rw [hl] at h3
            obtain rfl := Option.some_inj.mp h3
            exact absurd hv h4
        · have hr : resolveCategory cmap s = { s with category := some v } := by
            simp [resolveCategory, hcat, hcid, hc, hl, hv]
          rw [hr]
          unfold modalCategoryText cardCategoryText
          refine ⟨⟨by simp [jsOrS, hv], ?_, ?_⟩, ?_, ?_⟩
          · intro cid2 v2 h1 _ h3 _
            cases h1
            rw [hl] at h3
            obtain rfl := Option.some_inj.mp h3
            simp [jsOrS, hv]
          · intro hn
            exact absurd ⟨cid, v, rfl, hc, hl, hv⟩ hn
          · intro cid2 v2 h1 _ h3 _
            cases h1
            rw [hl] at h3
            obtain rfl := Option.some_inj.mp h3
            simp [jsOrS, hv]
          · intro hn
            exact absurd ⟨cid, v, rfl, hc, hl, hv⟩ hn

/-- Witness for the amended C9: a resolvable `categoryId` gives the mapped
card caption, an unresolvable one gives a non-empty modal text and an empty
card caption. -/
theorem claim_C9_witness :
    cardCategoryText (resolveCategory [("zzz", "Mystery Arts")] unmappedSkill) =
      "Mystery Arts" ∧
    modalCategoryText (resolveCategory [] unmappedSkill) ≠ "" ∧
    cardCategoryText (resolveCategory [] unmappedSkill) = "" := by
  refine ⟨?_, ?_, ?_⟩
  · exact ((claim_C9_amended [("zzz", "Mystery Arts")] unmappedSkill (by decide)).2).1
      "zzz" "Mystery Arts" rfl (by decide) (by decide) (by decide)
  · exact (claim_C9_amended [] unmappedSkill (by decide)).1.1
  · refine ((claim_C9_amended [] unmappedSkill (by decide)).2).2 ?_
    rintro ⟨cid, v, hcid, hc, hl, hv⟩
    simp at hl

/-- A user record that declares an explicit experience override of 0 years. -/
def zeroOverrideUser : User :=
  { skillCategories := [], experience := some { totalYears := some 0 } }

/-- A lone skill whose start date is 2021-06-01. -/
def pythonOnlySkill : Skill :=
  { id := some "python", name := some "Python", category := none,
    categoryId := none, priority := none, visible := none,
    startDate := some "2021-06-01" }

/-- Counterexample to claim C2: the user declares the explicit override
`experience.totalYears = 0`, but line 407 tests the override with `||`, for
which the number 0 is falsy, so the displayed statistic is the value computed
from the skills (3 years at 2024-06-01), not the declared override `0+`. -/
theorem claim_C2_counterexample :
    zeroOverrideUser.experience = some { totalYears := some 0 } ∧
    displayedExperienceYears zeroOverrideUser [pythonOnlySkill] ⟨2024, 6, 1⟩ = "3+" ∧
    ("3+" : String) ≠ "0+" := by decide

/-- Claim C2 as amended: an explicit `experience.totalYears` override takes
precedence for the displayed statistic only when its numeric value is truthy
(non-zero); a zero (or absent) override falls back to the value computed from
the skills' start dates, and to 0 when no skill has a parseable date. -/
theorem claim_C2_amended (user : User) (skills : List Skill) (now : Date) :
    (∀ n : Int, user.experience.bind Experience.totalYears = some n → n ≠ 0 →
       displayedExperienceYears user skills now = toString n ++ "+") ∧
    ((user.experience.bind Experience.totalYears = none ∨
      user.experience.bind Experience.totalYears = some 0) →
       initExperienceYears user skills now =
         computeExperienceYearsFromSkills skills now) ∧
    ((user.experience.bind Experience.totalYears = none ∨
      user.experience.bind Experience.totalYears = some 0) →
      parsedDates skills = [] →
       displayedExperienceYears user skills now = "0+") := by
  have hfall : ∀ (h : user.experience.bind Experience.totalYears = none ∨
      user.experience.bind Experience.totalYears = some 0),
      initExperienceYears user skills now =
        computeExperienceYearsFromSkills skills now := by
    intro h
    have hov : (match user.experience with
        | some ex => match ex.totalYears with
          | some n => n
          | none => (0 : Int)
        | none => (0 : Int)) = 0 := by
      rcases h with h | h <;>
      · cases hue : user.experience with
        | none => rfl
        | some ex =>
          cases hty : ex.totalYears with
          | none => simp [hty]
          | some n => simp_all
    unfold initExperienceYears
    rw [hov]
    simp only [ne_eq, not_true_eq_false, if_false, reduceIte]
    by_cases hc : computeExperienceYearsFromSkills skills now = 0
    · simp [hc]
    · simp [hc]
  refine ⟨?_, hfall, ?_⟩
  · intro n hn hnz
    have hov : (match user.experience with
        | some ex => match ex.totalYears with
          | some m => m
          | none => (0 : Int)
        | none => (0 : Int)) = n := by
      cases hue : user.experience with
      | none => simp [hue] at hn
      | some ex =>
        cases hty : ex.totalYears with
        | none => simp [hue, hty] at hn
        | some m =>
          simp [hue, hty] at hn
          simp [hty, hn]
    unfold displayedExperienceYears initExperienceYears
    rw [hov, if_pos hnz]
  · intro h hdates
    have h0 : computeExperienceYearsFromSkills skills now = 0 := by
      unfold computeExperienceYearsFromSkills earliestDate
      rw [hdates]
    unfold displayedExperienceYears
    rw [hfall h, h0]
    rfl

/-- Witness for the amended C2: a non-zero override of 7 years is displayed,
and with no override and no parseable dates the statistic is 0. -/
theorem claim_C2_witness :
    displayedExperienceYears
      { skillCategories := [], experience := some { totalYears := some 7 } }
      [pythonOnlySkill] ⟨2024, 6, 1⟩ = "7+" ∧
    displayedExperienceYears { skillCategories := [], experience := none }
      [] ⟨2024, 6, 1⟩ = "0+" := by
  constructor
  · exact (claim_C2_amended
      { skillCategories := [], experience := some { totalYears := some 7 } }
      [pythonOnlySkill] ⟨2024, 6, 1⟩).1 7 (by decide) (by decide)
  · exact (claim_C2_amended { skillCategories := [], experience := none }
      [] ⟨2024, 6, 1⟩).2.2 (Or.inl (by decide)) (by decide)

/-- Counterexample to claim C4: `ratings.json` can successfully fetch and
parse to the JSON value `null`, yet line 374 tests `!ratingsData`, so the
fulfilled value is discarded and the hard-coded fallback substituted — a
successfully fetched resource does not always keep its fetched value. -/
theorem claim_C4_counterexample :
    resolveResource (some Json.null) FALLBACK_RATINGS = FALLBACK_RATINGS ∧
    FALLBACK_RATINGS ≠ Json.null := by
  refine ⟨rfl, ?_⟩
  intro h
  simp [FALLBACK_RATINGS] at h

/-- Claim C4 as amended: the three resources are resolved independently (each
resolved payload depends only on its own fetch outcome); a failed fetch is
replaced by the resource's hard-coded fallback; a fulfilled TRUTHY value is
kept, while a fulfilled falsy value (`null`, `false`, `0`, `""`) is also
replaced by the fallback; and a skill whose id is absent from the rating map
is rendered with rating 0. -/
theorem claim_C4_amended (fu fs fr fu2 fs2 fr2 : Option Json) (v f : Json)
    (ratings : List (String × Int)) (s : Skill) :
    ((resolveAll fu fs fr).1 = (resolveAll fu fs2 fr2).1 ∧
     (resolveAll fu fs fr).2.1 = (resolveAll fu2 fs fr2).2.1 ∧
     (resolveAll fu fs fr).2.2 = (resolveAll fu2 fs2 fr).2.2) ∧
    resolveResource none f = f ∧
    (jsTruthy v = true → resolveResource (some v) f = v) ∧
    (jsTruthy v = false → resolveResource (some v) f = f) ∧
    (ratings.lookup (ratingKey s) = none → skillRating ratings s = 0) := by
  refine ⟨⟨rfl, rfl, rfl⟩, rfl, ?_, ?_, ?_⟩
  · intro h
    simp [resolveResource, h]
  · intro h
    simp [resolveResource, h]
  · intro h
    simp [skillRating, h]

/-- Witness for the amended C4: ratings fetch fails while the others succeed;
the fetched values are kept and the missing rating for `"python"` is 0. -/
theorem claim_C4_witness :
    resolveResource none FALLBACK_RATINGS = FALLBACK_RATINGS ∧
    resolveResource (some (Json.arr [])) FALLBACK_SKILLS = Json.arr [] ∧
    skillRating [] pythonOnlySkill = 0 := by
  refine ⟨(claim_C4_amended none none none none none none (Json.arr [])
      FALLBACK_RATINGS [] pythonOnlySkill).2.1, ?_, ?_⟩
  · exact (claim_C4_amended none none none none none none (Json.arr [])
      FALLBACK_SKILLS [] pythonOnlySkill).2.2.1 rfl
  · exact (claim_C4_amended none none none none none none (Json.arr [])
      FALLBACK_SKILLS [] pythonOnlySkill).2.2.2.2 rfl

theorem validatePayloads_badSkills_iff (s r : Json) :
    validatePayloads s r = Validation.badSkills ↔ jsonIsArray s = false := by
  unfold validatePayloads
  cases hs : jsonIsArray s
  · simp
  · simp
    cases hr : ratingsShapeOk r <;> simp

theorem validatePayloads_badRatings_iff (s r : Json) :
    validatePayloads s r = Validation.badRatings ↔
      (jsonIsArray s = true ∧ ratingsShapeOk r = false) := by
  unfold validatePayloads
  cases hs : jsonIsArray s <;> cases hr : ratingsShapeOk r <;> simp

theorem validatePayloads_ok_iff (s r : Json) :
    validatePayloads s r = Validation.ok ↔
      (jsonIsArray s = true ∧ ratingsShapeOk r = true) := by
  unfold validatePayloads
  cases hs : jsonIsArray s <;> cases hr : ratingsShapeOk r <;> simp

/-- Claim C10: the hard-coded fallbacks always pass the shape validation (the
fallback skills value is an array, the fallback ratings value a truthy
non-array object), so a failed fetch never reaches the fatal malformed-data
path: that path requires a fulfilled fetch whose (truthy) payload has the
wrong shape, and with fallbacks alone — all three fetches failing — `init`
always proceeds to render. -/
theorem claim_C10_fallbacksValid (fs fr : Option Json) (now : Date) :
    (jsonIsArray FALLBACK_SKILLS = true ∧ ratingsShapeOk FALLBACK_RATINGS = true) ∧
    (fs = none → jsonIsArray (resolveResource fs FALLBACK_SKILLS) = true) ∧
    (fr = none → ratingsShapeOk (resolveResource fr FALLBACK_RATINGS) = true) ∧
    (validatePayloads (resolveResource fs FALLBACK_SKILLS)
        (resolveResource fr FALLBACK_RATINGS) = Validation.badSkills →
      ∃ v, fs = some v ∧ jsTruthy v = true ∧ jsonIsArray v = false) ∧
    (validatePayloads (resolveResource fs FALLBACK_SKILLS)
        (resolveResource fr FALLBACK_RATINGS) = Validation.badRatings →
      ∃ v, fr = some v ∧ jsTruthy v = true ∧ ratingsShapeOk v = false) ∧
    ((runInit none none none now).loaderMessage = none ∧
     (runInit none none none now).stats.isSome = true) := by
  refine ⟨⟨rfl, rfl⟩, ?_, ?_, ?_, ?_, rfl, rfl⟩
  · intro h
    rw [h]
    rfl
  · intro h
    rw [h]
    rfl
  · intro h
    rw [validatePayloads_badSkills_iff] at h
    cases fs with
    | none => exact absurd h (by decide)
    | some v =>
      cases ht : jsTruthy v with
      | true =>
        have hres : resolveResource (some v) FALLBACK_SKILLS = v := by
          simp [resolveResource, ht]
        rw [hres] at h
        exact ⟨v, rfl, ht, h⟩
      | false =>
        have hres : resolveResource (some v) FALLBACK_SKILLS = FALLBACK_SKILLS := by
          simp [resolveResource, ht]
        rw [hres] at h
        exact absurd h (by decide)
  · intro h
    rw [validatePayloads_badRatings_iff] at h
    obtain ⟨_, h2⟩ := h
    cases fr with
    | none => exact absurd h2 (by decide)
    | some v =>
      cases ht : jsTruthy v with
      | true =>
        have hres : resolveResource (some v) FALLBACK_RATINGS = v := by
          simp [resolveResource, ht]
        rw [hres] at h2
        exact ⟨v, rfl, ht, h2⟩
      | false =>
        have hres : resolveResource (some v) FALLBACK_RATINGS = FALLBACK_RATINGS := by
          simp [resolveResource, ht]
        rw [hres] at h2
        exact absurd h2 (by decide)

/-- Witness for C10 with a fulfilled but wrong-shaped skills payload: the
validation failure pinpoints the fetched value. -/
theorem claim_C10_witness :
    ∃ v, some (Json.obj []) = some v ∧ jsTruthy v = true ∧ jsonIsArray v = false :=
  (claim_C10_fallbacksValid (some (Json.obj [])) none ⟨2024, 6, 1⟩).2.2.2.1 rfl

theorem runInit_badSkills (fu fs fr : Option Json) (now : Date)
    (h : validatePayloads (resolveResource fs FALLBACK_SKILLS)
      (resolveResource fr FALLBACK_RATINGS) = Validation.badSkills) :
    runInit fu fs fr now =
      { loaderMessage := some skillsMalformedMsg, cards := [], stats := none } := by
  unfold runInit resolveAll
  dsimp only
  rw [h]

theorem runInit_badRatings (fu fs fr : Option Json) (now : Date)
    (h : validatePayloads (resolveResource fs FALLBACK_SKILLS)
      (resolveResource fr FALLBACK_RATINGS) = Validation.badRatings) :
    runInit fu fs fr now =
      { loaderMessage := some ratingsMalformedMsg, cards := [], stats := none } := by
  unfold runInit resolveAll
  dsimp only
  rw [h]

theorem runInit_render (fu fs fr : Option Json) (now : Date)
    (h : validatePayloads (resolveResource fs FALLBACK_SKILLS)
      (resolveResource fr FALLBACK_RATINGS) = Validation.ok) :
    (runInit fu fs fr now).loaderMessage = none ∧
    (runInit fu fs fr now).stats.isSome = true := by
  unfold runInit resolveAll
  dsimp only
  rw [h]
  exact ⟨rfl, rfl⟩

/-- Claim C3: after fallback substitution, a non-array skills payload or a
non-mapping ratings payload makes `init` leave the malformed-data message in
place of the content area, with no skill cards and no stats update — no
partial render; otherwise `init` proceeds to render. -/
theorem claim_C3_validation (fu fs fr : Option Json) (now : Date) :
    (jsonIsArray (resolveResource fs FALLBACK_SKILLS) = false →
       runInit fu fs fr now =
         { loaderMessage := some skillsMalformedMsg, cards := [], stats := none }) ∧
    (jsonIsArray (resolveResource fs FALLBACK_SKILLS) = true →
     ratingsShapeOk (resolveResource fr FALLBACK_RATINGS) = false →
       runInit fu fs fr now =
         { loaderMessage := some ratingsMalformedMsg, cards := [], stats := none }) ∧
    (jsonIsArray (resolveResource fs FALLBACK_SKILLS) = true →
     ratingsShapeOk (resolveResource fr FALLBACK_RATINGS) = true →
       (runInit fu fs fr now).loaderMessage = none ∧
       (runInit fu fs fr now).stats.isSome = true) := by
  refine ⟨?_, ?_, ?_⟩
  · intro h
    exact runInit_badSkills fu fs fr now ((validatePayloads_badSkills_iff _ _).mpr h)
  · intro h1 h2
    exact runInit_badRatings fu fs fr now
      ((validatePayloads_badRatings_iff _ _).mpr ⟨h1, h2⟩)
  · intro h1 h2
    exact runInit_render fu fs fr now ((validatePayloads_ok_iff _ _).mpr ⟨h1, h2⟩)

/-- Witness for C3: a fetched skills payload that parses to an object halts
rendering with the malformed-data message and produces no cards and no stats,
while all-fallback data renders. -/
theorem claim_C3_witness :
    runInit none (some (Json.obj [])) none ⟨2024, 6, 1⟩ =
      { loaderMessage := some skillsMalformedMsg, cards := [], stats := none } ∧
    (runInit none none none ⟨2024, 6, 1⟩).loaderMessage = none := by
  constructor
  · exact (claim_C3_validation none (some (Json.obj [])) none ⟨2024, 6, 1⟩).1 (by decide)
  · exact ((claim_C3_validation none none none ⟨2024, 6, 1⟩).2.2 (by decide) (by decide)).1

/-- Claim C1: `computeExperienceYearsFromSkills` returns 0 when no skill has a
parseable start date; otherwise, writing `e` for the earliest parseable start
date, it returns the calendar-year difference to the current date minus 1 when
the current month/day precedes `e`'s month/day (stated for current dates not
before `e`, which is what "full elapsed years" presumes); on the repository's
fallback skills (start dates 2021-06-01 and 2022-01-15) at 2024-06-01 it
returns 3. -/
theorem claim_C1_experienceYears (skills : List Skill) (now : Date) :
    (parsedDates skills = [] → computeExperienceYearsFromSkills skills now = 0) ∧
    (∀ e : Date, earliestDate skills = some e → dateLe e now = true →
       computeExperienceYearsFromSkills skills now =
         (now.year : Int) - (e.year : Int) -
         (if now.month < e.month ∨ (now.month = e.month ∧ now.day < e.day)
          then 1 else 0)) ∧
    computeExperienceYearsFromSkills (decodeSkills FALLBACK_SKILLS) ⟨2024, 6, 1⟩ = 3 := by
  refine ⟨?_, ?_, by decide⟩
  · intro h
    unfold computeExperienceYearsFromSkills earliestDate
    rw [h]
  · intro e he hle
    unfold computeExperienceYearsFromSkills
    rw [he]
    dsimp only
    rw [dateLe, decide_eq_true_eq] at hle
    by_cases hadj : now.month < e.month ∨ (now.month = e.month ∧ now.day < e.day)
    · rw [if_pos hadj]
      rcases hle with h | ⟨h1, h2⟩
      · omega
      · rcases hadj with h3 | ⟨h3, h4⟩ <;> omega
    · rw [if_neg hadj]
      rcases hle with h | ⟨h1, h2⟩ <;> omega

/-- Witness for C1 on the fallback skills: the earliest parseable date is
2021-06-01 and the formula yields 3 full years at 2024-07-01. -/
theorem claim_C1_witness :
    computeExperienceYearsFromSkills (decodeSkills FALLBACK_SKILLS) ⟨2024, 7, 1⟩ = 3 := by
  have h := (claim_C1_experienceYears (decodeSkills FALLBACK_SKILLS) ⟨2024, 7, 1⟩).2.1
    ⟨2021, 6, 1⟩ (by decide) (by decide)
  rw [h]
  decide

theorem flatMap_insertSkill (gs : List RGroup) (k t : String) (s : Skill) :
    ((insertSkill gs k t s).flatMap RGroup.items).Perm
      ((gs.flatMap RGroup.items) ++ [s]) := by
  induction gs with
  | nil => simp [insertSkill]
  | cons g rest ih =>
    unfold insertSkill
    by_cases h : g.key = k
    · rw [if_pos h]
      simp only [List.flatMap_cons, List.append_assoc]
      exact List.Perm.append_left _ List.perm_append_comm
    · rw [if_neg h]
      simp only [List.flatMap_cons, List.append_assoc]
      exact List.Perm.append_left _ ih

theorem flatMap_groupSteps (cmap : List (String × String)) :
    ∀ (skills : List Skill) (gs : List RGroup),
    ((skills.foldl (groupStep cmap) gs).flatMap RGroup.items).Perm
      ((gs.flatMap RGroup.items) ++
       (skills.filter (fun s => s.visible ≠ some false))) := by
  intro skills
  induction skills with
  | nil =>
    intro gs
    simp
  | cons s rest ih =>
    intro gs
    simp only [List.foldl_cons]
    by_cases h : s.visible = some false
    · rw [groupStep, if_pos h]
      have hf : (s :: rest).filter (fun s => s.visible ≠ some false) =
          rest.filter (fun s => s.visible ≠ some false) := by
        rw [List.filter_cons]
        simp [h]
      rw [hf]
      exact ih gs
    · rw [groupStep, if_neg h]
      have hf : (s :: rest).filter (fun s => s.visible ≠ some false) =
          s :: rest.filter (fun s => s.visible ≠ some false) := by
        rw [List.filter_cons]
        simp [h]
      rw [hf]
      refine (ih _).trans ?_
      refine (List.Perm.append_right _ (flatMap_insertSkill gs _ _ s)).trans ?_
      rw [List.append_assoc]
      rfl

theorem mem_insertSkill_items {gs : List RGroup} {k t : String} {s x : Skill}
    {g : RGroup} (hg : g ∈ insertSkill gs k t s) (hx : x ∈ g.items) :
    (∃ g0 ∈ gs, x ∈ g0.items) ∨ x = s := by
  induction gs with
  | nil =>
    rw [insertSkill] at hg
    rcases List.mem_singleton.mp hg with rfl
    simp at hx
    exact Or.inr hx
  | cons g0 rest ih =>
    rw [insertSkill] at hg
    by_cases h : g0.key = k
    · rw [if_pos h] at hg
      rcases List.mem_cons.mp hg with rfl | hg'
      · simp only [List.mem_append, List.mem_singleton] at hx
        rcases hx with hx | rfl
        · exact Or.inl ⟨g0, List.mem_cons_self g0 rest, hx⟩
        · exact Or.inr rfl
      · exact Or.inl ⟨g, List.mem_cons_of_mem g0 hg', hx⟩
    · rw [if_neg h] at hg
      rcases List.mem_cons.mp hg with rfl | hg'
      · exact Or.inl ⟨g, List.mem_cons_self g rest, hx⟩
      · rcases ih hg' with ⟨g1, hg1, hx1⟩ | hxs
        · exact Or.inl ⟨g1, List.mem_cons_of_mem g0 hg1, hx1⟩
        · exact Or.inr hxs

theorem groupSteps_visible (cmap : List (String × String)) :
    ∀ (skills : List Skill) (gs : List RGroup),
    (∀ g ∈ gs, ∀ x ∈ g.items, x.visible ≠ some false) →
    ∀ g ∈ skills.foldl (groupStep cmap) gs, ∀ x ∈ g.items,
      x.visible ≠ some false := by
  intro skills
  induction skills with
  | nil =>
    intro gs hgs
    exact hgs
  | cons s rest ih =>
    intro gs hgs
    simp only [List.foldl_cons]
    by_cases h : s.visible = some false
    · rw [groupStep, if_pos h]
      exact ih gs hgs
    · rw [groupStep, if_neg h]
      refine ih _ ?_
      intro g hg x hx
      rcases mem_insertSkill_items hg hx with ⟨g0, hg0, hx0⟩ | rfl
      · exact hgs g0 hg0 x hx0
      · exact h

/-- Claim C5: grouping the skills (lines 178-184) and then flattening all
groups yields exactly the visible skills — the skill ids, with multiplicity,
are a permutation of those of `skills.filter (visible ≠ false)` — and a skill
marked `visible === false` appears in no group. -/
theorem claim_C5_groupFlatten (cmap : List (String × String))
    (skills : List Skill) :
    (((buildGroups cmap skills).flatMap RGroup.items).map Skill.id).Perm
      ((skills.filter (fun s => s.visible ≠ some false)).map Skill.id) ∧
    (∀ g ∈ buildGroups cmap skills, ∀ s ∈ g.items, s.visible ≠ some false) := by
  constructor
  · refine List.Perm.map Skill.id ?_
    have h := flatMap_groupSteps cmap skills []
    simpa using h
  · exact groupSteps_visible cmap skills [] (by intro g hg; simp at hg)

/-- Witness for C5 on a list with one hidden and two visible skills. -/
theorem claim_C5_witness :
    ((((buildGroups [] [unmappedSkill,
        { unmappedSkill with id := some "hidden", visible := some false },
        pythonOnlySkill ]).flatMap RGroup.items).map Skill.id).Perm
      (([unmappedSkill,
        { unmappedSkill with id := some "hidden", visible := some false },
        pythonOnlySkill ].filter (fun s => s.visible ≠ some false)).map Skill.id)) ∧
    (∀ s ∈ (buildGroups [] [unmappedSkill,
        { unmappedSkill with id := some "hidden", visible := some false },
        pythonOnlySkill ]).flatMap RGroup.items, s.visible ≠ some false) := by
  constructor
  · exact (claim_C5_groupFlatten [] _).1
  · intro s hs
    rw [List.mem_flatMap] at hs
    obtain ⟨g, hg, hsg⟩ := hs
    exact (claim_C5_groupFlatten [] _).2 g hg s hsg

theorem strLe_refl (n : String) : strLe n n = true := by
  unfold strLe strLt
  rw [charListLt_irrefl]
  rfl

/-- Claim C6: the rendered order within a group (line 190) is a permutation of
the group sorted by priority descending with ties broken by name ascending,
and the sort is stable: for every priority/name key the subsequence of entries
with that key is exactly the input subsequence with that key, so equal-key
entries retain their relative input order. -/
theorem claim_C6_sortOrder (items : List Skill) :
    (jsSortGroup items).Perm items ∧
    List.Pairwise (fun a b => jsPriority b < jsPriority a ∨
      (jsPriority b = jsPriority a ∧ strLe (jsName a) (jsName b) = true))
      (jsSortGroup items) ∧
    (∀ (p : Int) (n : String),
      (jsSortGroup items).filter (fun s => jsPriority s = p ∧ jsName s = n) =
      items.filter (fun s => jsPriority s = p ∧ jsName s = n)) := by
  refine ⟨List.perm_insertionSort sortRel items, ?_, ?_⟩
  · have hs := List.sorted_insertionSort sortRel items
    exact hs.imp (fun h => (sortRel_iff _ _).mp h)
  · intro p n
    have hpw : List.Pairwise sortRel
        (items.filter (fun s => jsPriority s = p ∧ jsName s = n)) := by
      apply List.pairwise_of_forall_mem_list
      intro a ha b hb
      have ha' := List.of_mem_filter ha
      have hb' := List.of_mem_filter hb
      rw [decide_eq_true_eq] at ha' hb'
      rw [sortRel_iff]
      right
      refine ⟨by rw [ha'.1, hb'.1], ?_⟩
      rw [ha'.2, hb'.2]
      exact strLe_refl n
    have h1 : (items.filter (fun s => jsPriority s = p ∧ jsName s = n)).Sublist
        (jsSortGroup items) :=
      List.sublist_insertionSort hpw (List.filter_sublist items)
    have h2 := h1.filter (fun s => decide (jsPriority s = p ∧ jsName s = n))
    rw [List.filter_filter] at h2
    have hff : (items.filter (fun a =>
        decide (jsPriority a = p ∧ jsName a = n) &&
        decide (jsPriority a = p ∧ jsName a = n))) =
        items.filter (fun s => jsPriority s = p ∧ jsName s = n) := by
      simp only [Bool.and_self]
    rw [hff] at h2
    have h3 : ((jsSortGroup items).filter
        (fun s => jsPriority s = p ∧ jsName s = n)).Perm
        (items.filter (fun s => jsPriority s = p ∧ jsName s = n)) :=
      (List.perm_insertionSort sortRel items).filter _
    exact (h2.eq_of_length h3.length_eq.symm).symm

/-- Two skills with equal priority and equal name, distinguishable by id. -/
def dupSkillA : Skill :=
  { id := some "a", name := some "dup", category := none, categoryId := none,
    priority := some 5, visible := none, startDate := none }

/-- Second of the equal-key pair. -/
def dupSkillB : Skill :=
  { id := some "b", name := some "dup", category := none, categoryId := none,
    priority := some 5, visible := none, startDate := none }

/-- Witness for C6: the equal-key subsequence of the sorted list equals the
input subsequence, so `dupSkillA` stays before `dupSkillB`. -/
theorem claim_C6_witness :
    (jsSortGroup [dupSkillA, dupSkillB, pythonOnlySkill]).filter
      (fun s => jsPriority s = 5 ∧ jsName s = "dup") =
    ([dupSkillA, dupSkillB, pythonOnlySkill].filter
      (fun s => jsPriority s = 5 ∧ jsName s = "dup")) :=
  (claim_C6_sortOrder [dupSkillA, dupSkillB, pythonOnlySkill]).2.2 5 "dup"
